import Mathlib

/-!
# Verification of the Enki_V3 generation / extraction / transformation pipeline

Shallow embedding of the core pipeline of the repository:

* `src/src/enki_class_v2.py` — class `Enki_V3`: difference cascade (steps 3–9),
  flatten (`combine_all_values_DT`), trend codes (`create_pva_array`),
  modulation matrix (`create_PVA_Mods`), alpha roots
  (`create_alpha_roots_rows` / `create_alpha_roots_post_pivot` /
  `combine_alpha_roots` / `create_alpha_roots_dataframe`), alpha records
  (`create_alpha`).
* `src/src/phorms_mod_table.py` — `phorms_mod_table`.
* `src/src/alpha_transformer.py` — `AlphaTransformer.transform_alpha_dataframe`.

Machine integers are modelled as `Int` (Python ints are unbounded).  Python
`%` and `//` with a positive right operand agree with Lean's `Int.emod` and
`Int.ediv`, which are the `%` and `/` of `Int` here.  Fallible operations
return `Option`/`Except`.  The Python code keys the cascade sequences by the
strings `"chi_root"`, `"theta_root"`, `"lambda_root"`, `"epsilon_root"`,
`"kappa_root_i"`; these distinct keys are modelled by the inductive type
`RootName` (in bijection with the strings used by the source).
-/

namespace Enki

/-- The padding sentinel `-99` used throughout `enki_class_v2.py`. -/
def SENTINEL : Int := -99

/-- `np.abs(np.diff(a))`: elementwise absolute first difference
(`|a[i+1] - a[i]|`), length one less than the input. -/
def absDiff (l : List Int) : List Int :=
  (l.zip l.tail).map (fun p => |p.2 - p.1|)

/-- Names of the cascade sequences; mirrors the Python string keys
`"chi_root"`, `"theta_root"`, `"lambda_root"`, `"epsilon_root"`,
`"kappa_root_i"` (all distinct). -/
inductive RootName where
  | chi : RootName
  | theta : RootName
  | lam : RootName
  | eps : RootName
  | kappa : Nat → RootName
deriving DecidableEq, Repr

/-- Linear search for a named root, as the Python `for name, array in ...`
loops do (first match wins). -/
def findRoot : List (RootName × List Int) → RootName → Option (List Int)
  | [], _ => none
  | (nm, a) :: rest, target =>
      if nm = target then some a else findRoot rest target

/-- Replace the first entry with the given name, as the Python
`self.data_triangle_roots[i] = (name, values)` assignments do. -/
def setRoot : List (RootName × List Int) → RootName → List Int →
    List (RootName × List Int)
  | [], _, _ => []
  | (nm, a) :: rest, target, vals =>
      if nm = target then (nm, vals) :: rest
      else (nm, a) :: setRoot rest target vals

/-- Step 3 (`root_arrays`): the four fixed empty roots. -/
def root_arrays : List (RootName × List Int) :=
  [(.chi, []), (.theta, []), (.lam, []), (.eps, [])]

/-- Step 4 (`create_kappa_root_arrays`): `kappa_total = N - 4` empty kappa
roots. -/
def create_kappa_root_arrays (n : Nat) : List (RootName × List Int) :=
  (List.range (n - 4)).map (fun i => (.kappa i, []))

/-- Step 5 (`create_data_triangle_roots`): store the seed in `chi_root` and
append the kappa roots. -/
def create_data_triangle_roots (seed : List Int) (n : Nat) :
    List (RootName × List Int) :=
  setRoot root_arrays .chi seed ++ create_kappa_root_arrays n

/-- Shared body of steps 6–9: look up `src`, store its absolute difference
in `dst`; `none` models the `ValueError` raised when `src` is missing. -/
def updateDiffRoot (roots : List (RootName × List Int)) (src dst : RootName) :
    Option (List (RootName × List Int)) :=
  match findRoot roots src with
  | none => none
  | some a => some (setRoot roots dst (absDiff a))

/-- Step 6 (`update_theta_root`). -/
def update_theta_root (roots : List (RootName × List Int)) :
    Option (List (RootName × List Int)) :=
  updateDiffRoot roots .chi .theta

/-- Step 7 (`update_lambda_root`). -/
def update_lambda_root (roots : List (RootName × List Int)) :
    Option (List (RootName × List Int)) :=
  updateDiffRoot roots .theta .lam

/-- Step 8 (`update_epsilon_root`). -/
def update_epsilon_root (roots : List (RootName × List Int)) :
    Option (List (RootName × List Int)) :=
  updateDiffRoot roots .lam .eps

/-- Step 9 (`update_kappa_roots`): fill `kappa_root_0` from `epsilon_root`,
then `kappa_root_{i+1}` from `kappa_root_i` for `i = 0 .. kappa_total - 2`. -/
def update_kappa_roots (n : Nat) (roots : List (RootName × List Int)) :
    Option (List (RootName × List Int)) :=
  (updateDiffRoot roots .eps (.kappa 0)).bind (fun r0 =>
    (List.range (n - 4 - 1)).foldlM
      (fun r i => updateDiffRoot r (.kappa i) (.kappa (i + 1))) r0)

/-- Steps 3–9 chained: the data-triangle construction of `run_pipeline`. -/
def buildDataTriangle (seed : List Int) (n : Nat) :
    Option (List (RootName × List Int)) :=
  (update_theta_root (create_data_triangle_roots seed n)).bind (fun r1 =>
    (update_lambda_root r1).bind (fun r2 =>
      (update_epsilon_root r2).bind (fun r3 =>
        update_kappa_roots n r3)))

/-- Declared order of the cascade sequences: chi, theta, lambda, epsilon,
kappa_0, kappa_1, …. -/
def seqName : Nat → RootName
  | 0 => .chi
  | 1 => .theta
  | 2 => .lam
  | 3 => .eps
  | k + 4 => .kappa k

/-- The cascade the builder is expected to produce: sequence `k` is the
`k`-fold elementwise absolute first difference of the seed. -/
def expectedTriangle (seed : List Int) (n : Nat) : List (RootName × List Int) :=
  (List.range n).map (fun k => (seqName k, absDiff^[k] seed))

example : ∀ seed : List Int, buildDataTriangle seed 6 = some (expectedTriangle seed 6) := by
  intro seed
  rfl

example : buildDataTriangle [3, 5, 2, 8, 1, 4] 6 =
    some [(.chi, [3, 5, 2, 8, 1, 4]), (.theta, [2, 3, 6, 7, 3]),
      (.lam, [1, 3, 1, 4]), (.eps, [2, 2, 3]),
      (.kappa 0, [0, 1]), (.kappa 1, [1])] := by
  decide

/-! ## Basic facts about `absDiff` -/

lemma absDiff_length (l : List Int) : (absDiff l).length = l.length - 1 := by
  simp [absDiff, Nat.min_def]

lemma iterate_absDiff_length (l : List Int) (k : Nat) :
    (absDiff^[k] l).length = l.length - k := by
  induction k with
  | zero => simp
  | succ k ih =>
      rw [Function.iterate_succ_apply', absDiff_length, ih]
      omega

lemma absDiff_nonneg {l : List Int} {x : Int} (hx : x ∈ absDiff l) : 0 ≤ x := by
  simp only [absDiff, List.mem_map] at hx
  obtain ⟨p, -, rfl⟩ := hx
  exact abs_nonneg _

/-! ## Characterization of the cascade builder -/

lemma findRoot_kappa_range (f : Nat → List Int) :
    ∀ (m s t : Nat), s ≤ t → t < s + m →
      findRoot ((List.range' s m).map (fun i => (RootName.kappa i, f i)))
        (.kappa t) = some (f t) := by
  intro m
  induction m with
  | zero => intro s t h1 h2; omega
  | succ m ih =>
      intro s t h1 h2
      rw [List.range'_succ]
      by_cases hst : s = t
      · subst hst; simp [findRoot]
      · have : (RootName.kappa s = RootName.kappa t) = False := by
          simp; omega
        simp only [List.map_cons, findRoot, this, if_false]
        exact ih (s + 1) t (by omega) (by omega)

lemma setRoot_kappa_range (f : Nat → List Int) (v : List Int) :
    ∀ (m s t : Nat),
      setRoot ((List.range' s m).map (fun i => (RootName.kappa i, f i)))
        (.kappa t) v =
      (List.range' s m).map
        (fun i => (RootName.kappa i, if i = t then v else f i)) := by
  intro m
  induction m with
  | zero => intro s t; rfl
  | succ m ih =>
      intro s t
      rw [List.range'_succ, List.map_cons, List.map_cons]
      simp only [setRoot]
      by_cases hst : s = t
      · subst hst
        rw [if_pos rfl, if_pos rfl]
        congr 1
        refine List.map_congr_left (fun i hi => ?_)
        have h1 : s + 1 ≤ i := (List.mem_range'_1.mp hi).1
        simp only [Prod.mk.injEq, true_and]
        rw [if_neg (by omega)]
      · rw [if_neg (fun hc => hst (RootName.kappa.inj hc)), if_neg hst,
          ih (s + 1) t]

lemma setRoot_append_not_mem
    (l1 l2 : List (RootName × List Int)) (t : RootName) (v : List Int)
    (h : ∀ p ∈ l1, p.1 ≠ t) :
    setRoot (l1 ++ l2) t v = l1 ++ setRoot l2 t v := by
  induction l1 with
  | nil => rfl
  | cons p rest ih =>
      obtain ⟨nm, a⟩ := p
      have hnm : nm ≠ t := h (nm, a) (List.mem_cons_self _ _)
      simp only [List.cons_append, setRoot, if_neg hnm, List.append_eq]
      rw [ih (fun q hq => h q (List.mem_cons_of_mem _ hq))]

lemma findRoot_append_none
    (l1 l2 : List (RootName × List Int)) (t : RootName)
    (h : ∀ p ∈ l1, p.1 ≠ t) :
    findRoot (l1 ++ l2) t = findRoot l2 t := by
  induction l1 with
  | nil => rfl
  | cons p rest ih =>
      obtain ⟨nm, a⟩ := p
      have hnm : nm ≠ t := h (nm, a) (List.mem_cons_self _ _)
      simp only [List.cons_append, findRoot, if_neg hnm, List.append_eq]
      exact ih (fun q hq => h q (List.mem_cons_of_mem _ hq))

/-- Cascade state after the first `j` kappa roots have been filled. -/
def kappaState (seed : List Int) (n j : Nat) : List (RootName × List Int) :=
  [(.chi, seed), (.theta, absDiff^[1] seed), (.lam, absDiff^[2] seed),
    (.eps, absDiff^[3] seed)] ++
  (List.range' 0 (n - 4)).map
    (fun i => (.kappa i, if i < j then absDiff^[4 + i] seed else []))

lemma kappa_fold (seed : List Int) (n : Nat) :
    ∀ (m s : Nat), s + m + 5 ≤ n →
      (List.range' s m).foldlM
        (fun r i => updateDiffRoot r (.kappa i) (.kappa (i + 1)))
        (kappaState seed n (s + 1)) =
      some (kappaState seed n (s + m + 1)) := by
  intro m
  induction m with
  | zero => intro s _; rfl
  | succ m ih =>
      intro s hs
      rw [List.range'_succ, List.foldlM_cons]
      have hfind :
          findRoot (kappaState seed n (s + 1)) (.kappa s) =
            some (absDiff^[4 + s] seed) := by
        rw [kappaState, findRoot_append_none _ _ _ (by simp)]
        rw [findRoot_kappa_range _ (n - 4) 0 s (by omega) (by omega)]
        rw [if_pos (by omega)]
      have hset :
          setRoot (kappaState seed n (s + 1)) (.kappa (s + 1))
              (absDiff (absDiff^[4 + s] seed)) =
            kappaState seed n (s + 2) := by
        rw [kappaState, setRoot_append_not_mem _ _ _ _ (by simp)]
        rw [setRoot_kappa_range]
        unfold kappaState
        congr 1
        refine List.map_congr_left (fun i _ => ?_)
        simp only [Prod.mk.injEq, true_and]
        by_cases hi : i = s + 1
        · subst hi
          rw [if_pos rfl, if_pos (by omega)]
          rw [show 4 + (s + 1) = (4 + s) + 1 by omega,
            Function.iterate_succ_apply']
        · rw [if_neg hi]
          by_cases hlt : i < s + 1
          · rw [if_pos hlt, if_pos (by omega)]
          · rw [if_neg hlt, if_neg (by omega)]
      have hupd : updateDiffRoot (kappaState seed n (s + 1)) (.kappa s)
          (.kappa (s + 1)) = some (kappaState seed n (s + 2)) := by
        rw [updateDiffRoot, hfind]
        exact congrArg some hset
      rw [hupd]
      rw [show (some (kappaState seed n (s + 2)) >>= fun r =>
            (List.range' (s + 1) m).foldlM
              (fun r i => updateDiffRoot r (.kappa i) (.kappa (i + 1))) r) =
          (List.range' (s + 1) m).foldlM
            (fun r i => updateDiffRoot r (.kappa i) (.kappa (i + 1)))
            (kappaState seed n (s + 2)) from rfl]
      rw [show s + 2 = (s + 1) + 1 by omega]
      rw [ih (s + 1) (by omega)]
      congr 2
      omega

lemma kappaState_final (seed : List Int) (n : Nat) (h : 6 ≤ n) :
    kappaState seed n (n - 4) = expectedTriangle seed n := by
  have hsplit : List.range n = List.range' 0 4 ++ List.range' 4 (n - 4) := by
    have h2 : List.range' 0 4 ++ List.range' 4 (n - 4) =
        List.range' 0 (n - 4 + 4) := by
      simpa using List.range'_append 0 4 (n - 4) 1
    rw [List.range_eq_range']
    conv_lhs => rw [show n = n - 4 + 4 by omega]
    rw [h2]
  have hkappa : (List.range' 0 (n - 4)).map
      (fun i => (RootName.kappa i,
        if i < n - 4 then absDiff^[4 + i] seed else ([] : List Int))) =
      (List.range' 4 (n - 4)).map
        (fun k => (seqName k, absDiff^[k] seed)) := by
    rw [List.range'_eq_map_range 4 (n - 4), List.map_map,
      show List.range' 0 (n - 4) = List.range (n - 4) from
        (List.range_eq_range' (n - 4)).symm]
    refine List.map_congr_left (fun i hi => ?_)
    have hi2 : i < n - 4 := List.mem_range.mp hi
    simp only [Function.comp_apply]
    rw [if_pos hi2, show 4 + i = i + 4 by omega]
    rfl
  rw [expectedTriangle, hsplit, List.map_append, kappaState, hkappa]
  rfl

lemma buildDataTriangle_eq (seed : List Int) (n : Nat) (h : 6 ≤ n) :
    buildDataTriangle seed n = some (expectedTriangle seed n) := by
  have h1 : create_data_triangle_roots seed n =
      [(.chi, seed), (.theta, []), (.lam, []), (.eps, [])] ++
        (List.range' 0 (n - 4)).map (fun i => (RootName.kappa i, [])) := by
    rw [create_data_triangle_roots, create_kappa_root_arrays,
      show List.range (n - 4) = List.range' 0 (n - 4) from
        List.range_eq_range' (n - 4)]
    rfl
  have h2 : update_theta_root (create_data_triangle_roots seed n) =
      some ([(.chi, seed), (.theta, absDiff seed), (.lam, []), (.eps, [])] ++
        (List.range' 0 (n - 4)).map (fun i => (RootName.kappa i, []))) := by
    rw [h1]
    rfl
  have h3 : update_lambda_root
      ([(.chi, seed), (.theta, absDiff seed), (.lam, []), (.eps, [])] ++
        (List.range' 0 (n - 4)).map (fun i => (RootName.kappa i, []))) =
      some ([(.chi, seed), (.theta, absDiff seed),
        (.lam, absDiff (absDiff seed)), (.eps, [])] ++
        (List.range' 0 (n - 4)).map (fun i => (RootName.kappa i, []))) := by
    rfl
  have h4 : update_epsilon_root
      ([(.chi, seed), (.theta, absDiff seed),
        (.lam, absDiff (absDiff seed)), (.eps, [])] ++
        (List.range' 0 (n - 4)).map (fun i => (RootName.kappa i, []))) =
      some ([(.chi, seed), (.theta, absDiff seed),
        (.lam, absDiff (absDiff seed)),
        (.eps, absDiff (absDiff (absDiff seed)))] ++
        (List.range' 0 (n - 4)).map (fun i => (RootName.kappa i, []))) := by
    rfl
  have hstate0 :
      ([(.chi, seed), (.theta, absDiff seed),
        (.lam, absDiff (absDiff seed)),
        (.eps, absDiff (absDiff (absDiff seed)))] ++
        (List.range' 0 (n - 4)).map (fun i => (RootName.kappa i, []))) =
      kappaState seed n 0 := by
    rfl
  have h5 : update_kappa_roots n
      (kappaState seed n 0) = some (expectedTriangle seed n) := by
    rw [update_kappa_roots]
    have hfind : findRoot (kappaState seed n 0) .eps =
        some (absDiff^[3] seed) := by
      rfl
    have hset : setRoot (kappaState seed n 0) (.kappa 0)
        (absDiff (absDiff^[3] seed)) = kappaState seed n 1 := by
      rw [kappaState, setRoot_append_not_mem _ _ _ _ (by simp),
        setRoot_kappa_range, kappaState]
      congr 1
      refine List.map_congr_left (fun i _ => ?_)
      simp only [Prod.mk.injEq, true_and]
      by_cases hi : i = 0
      · subst hi
        rw [if_pos rfl, if_pos (by omega)]
        rfl
      · rw [if_neg hi, if_neg (by omega), if_neg (by omega)]
    rw [show updateDiffRoot (kappaState seed n 0) .eps (.kappa 0) =
        some (kappaState seed n 1) by
      rw [updateDiffRoot, hfind]
      exact congrArg some hset]
    rw [Option.some_bind]
    rw [show List.range (n - 4 - 1) = List.range' 0 (n - 4 - 1) from
      List.range_eq_range' _]
    rw [show kappaState seed n 1 = kappaState seed n (0 + 1) by rfl]
    rw [kappa_fold seed n (n - 4 - 1) 0 (by omega)]
    rw [show 0 + (n - 4 - 1) + 1 = n - 4 by omega]
    rw [kappaState_final seed n h]
  rw [buildDataTriangle, h2, Option.some_bind, h3, Option.some_bind, h4,
    Option.some_bind, hstate0, h5]

/-- **C1.**  For every valid Seed (length `N ∈ [6,15]`, values in `[0,9]`)
the cascade builder (steps 3–9 of `Enki_V3.run_pipeline`, i.e.
`update_theta_root` / `update_lambda_root` / `update_epsilon_root` /
`update_kappa_roots`) produces exactly `N` named sequences, in declared
order chi, theta, lambda, epsilon, kappa_0 … kappa_{N-5}, where sequence
`k` is the `k`-fold elementwise absolute first difference of the Seed and
has length `N - k`. -/
theorem C1_cascade (seed : List Int) (n : Nat) (h6 : 6 ≤ n) (h15 : n ≤ 15)
    (hlen : seed.length = n) (hvals : ∀ x ∈ seed, 0 ≤ x ∧ x ≤ 9) :
    buildDataTriangle seed n =
      some ((List.range n).map (fun k => (seqName k, absDiff^[k] seed))) ∧
    ∀ k, k < n → (absDiff^[k] seed).length = n - k := by
  refine ⟨buildDataTriangle_eq seed n h6, fun k _ => ?_⟩
  rw [iterate_absDiff_length, hlen]

/-- Witness for C1 at the worked scenario `N = 6`,
`Seed = [3,5,2,8,1,4]`, including the concrete cascade values
`theta = [2,3,6,7,3]`, `lambda = [1,3,1,4]`, `epsilon = [2,2,3]`,
`kappa_0 = [0,1]`, `kappa_1 = [1]`. -/
theorem C1_cascade_witness :
    ((6 : Nat) ≤ 6 ∧ (6 : Nat) ≤ 15 ∧
      ([3, 5, 2, 8, 1, 4] : List Int).length = 6 ∧
      (∀ x ∈ ([3, 5, 2, 8, 1, 4] : List Int), 0 ≤ x ∧ x ≤ 9)) ∧
    (buildDataTriangle [3, 5, 2, 8, 1, 4] 6 =
      some ((List.range 6).map
        (fun k => (seqName k, absDiff^[k] [3, 5, 2, 8, 1, 4]))) ∧
      ∀ k, k < 6 → (absDiff^[k] ([3, 5, 2, 8, 1, 4] : List Int)).length = 6 - k) ∧
    absDiff^[1] ([3, 5, 2, 8, 1, 4] : List Int) = [2, 3, 6, 7, 3] ∧
    absDiff^[2] ([3, 5, 2, 8, 1, 4] : List Int) = [1, 3, 1, 4] ∧
    absDiff^[3] ([3, 5, 2, 8, 1, 4] : List Int) = [2, 2, 3] ∧
    absDiff^[4] ([3, 5, 2, 8, 1, 4] : List Int) = [0, 1] ∧
    absDiff^[5] ([3, 5, 2, 8, 1, 4] : List Int) = [1] :=
  ⟨⟨by decide, by decide, by decide, by decide⟩,
    C1_cascade [3, 5, 2, 8, 1, 4] 6 (by decide) (by decide) (by decide)
      (by decide),
    by decide, by decide, by decide, by decide, by decide⟩

/-! ## Step 10: Padded Table and Combined Flat Sequence -/

/-- `np.pad(array, (0, max_length - len(array)), constant_values=-99)`. -/
def padTo (l : List Int) (m : Nat) : List Int :=
  l ++ List.replicate (m - l.length) SENTINEL

/-- `max(len(array) for _, array in self.data_triangle_roots)`. -/
def maxRootLen (roots : List (RootName × List Int)) : Nat :=
  (roots.map (fun r => r.2.length)).foldr max 0

/-- Row `r` of the Padded Table: for each sequence (in declared order) its
`r`-th padded entry.  This is what both `combine_all_values_DT` and
`create_DT_dataframe` read (`padded_data[name][row_index]`). -/
def dtRow (roots : List (RootName × List Int)) (m r : Nat) : List Int :=
  roots.map (fun col => (padTo col.2 m).getD r SENTINEL)

/-- Step 10 (`combine_all_values_DT`): row-major scan of the Padded Table,
emitting every non-sentinel cell. -/
def combine_all_values_DT (roots : List (RootName × List Int)) : List Int :=
  (List.range (maxRootLen roots)).flatMap
    (fun r => (dtRow roots (maxRootLen roots) r).filter (fun v => v ≠ SENTINEL))

lemma padTo_getD (l : List Int) (m r : Nat) :
    (padTo l m).getD r SENTINEL =
      if h : r < l.length then l.getD r 0 else SENTINEL := by
  by_cases h : r < l.length
  · rw [dif_pos h, padTo, List.getD_append _ _ _ _ h,
      List.getD_eq_getElem _ _ h, List.getD_eq_getElem _ _ h]
  · rw [dif_neg h, padTo, List.getD_append_right _ _ _ _ (by omega),
      List.getD_eq_getElem?_getD, List.getElem?_replicate]
    split <;> rfl

lemma iterate_absDiff_nonneg (seed : List Int)
    (hvals : ∀ x ∈ seed, 0 ≤ x) (k : Nat) :
    ∀ x ∈ absDiff^[k] seed, 0 ≤ x := by
  cases k with
  | zero => simpa using hvals
  | succ k =>
      rw [Function.iterate_succ_apply']
      exact fun x hx => absDiff_nonneg hx

lemma foldr_max_le {l : List Nat} {b : Nat} (h : ∀ x ∈ l, x ≤ b) :
    l.foldr max 0 ≤ b := by
  induction l with
  | nil => simp
  | cons a l ih =>
      simp only [List.foldr_cons]
      have ha : a ≤ b := h a (List.mem_cons_self _ _)
      have hl : l.foldr max 0 ≤ b := ih (fun x hx => h x (List.mem_cons_of_mem _ hx))
      omega

lemma le_foldr_max {l : List Nat} {x : Nat} (hx : x ∈ l) :
    x ≤ l.foldr max 0 := by
  induction l with
  | nil => simp at hx
  | cons a l ih =>
      simp only [List.foldr_cons]
      rcases List.mem_cons.mp hx with h | h
      · omega
      · have := ih h
        omega

lemma maxRootLen_expected (seed : List Int) (n : Nat)
    (hlen : seed.length = n) (h1 : 1 ≤ n) :
    maxRootLen (expectedTriangle seed n) = n := by
  have hmap : (expectedTriangle seed n).map (fun r => r.2.length) =
      (List.range n).map (fun k => n - k) := by
    rw [expectedTriangle, List.map_map]
    refine List.map_congr_left (fun k _ => ?_)
    simp only [Function.comp_apply]
    rw [iterate_absDiff_length, hlen]
  rw [maxRootLen, hmap]
  refine Nat.le_antisymm (foldr_max_le ?_) (le_foldr_max ?_)
  · intro x hx
    simp only [List.mem_map, List.mem_range] at hx
    obtain ⟨k, -, rfl⟩ := hx
    omega
  · simp only [List.mem_map, List.mem_range]
    exact ⟨0, by omega, by omega⟩

lemma map_const_eq_replicate {f : Nat → Int} {l : List Nat} {c : Int}
    (h : ∀ x ∈ l, f x = c) : l.map f = List.replicate l.length c := by
  induction l with
  | nil => rfl
  | cons a l ih =>
      rw [List.map_cons, List.length_cons, List.replicate_succ,
        h a (List.mem_cons_self _ _),
        ih (fun x hx => h x (List.mem_cons_of_mem _ hx))]

/-- Row `r` of the Padded Table of a valid cascade: the actual values of the
first `n - r` sequences, then a trailing block of sentinels. -/
lemma dtRow_expected (seed : List Int) (n : Nat) (hlen : seed.length = n)
    (r : Nat) (hr : r < n) :
    dtRow (expectedTriangle seed n) n r =
      ((List.range (n - r)).map (fun k => (absDiff^[k] seed).getD r 0)) ++
        List.replicate r SENTINEL := by
  have hsplit : List.range n = List.range (n - r) ++ List.range' (n - r) r := by
    have h2 : List.range' 0 (n - r) ++ List.range' (n - r) r =
        List.range' 0 (r + (n - r)) := by
      simpa using List.range'_append 0 (n - r) r 1
    rw [List.range_eq_range']
    conv_lhs => rw [show n = r + (n - r) by omega]
    rw [← h2, ← List.range_eq_range']
  rw [dtRow, expectedTriangle, List.map_map, hsplit, List.map_append]
  congr 1
  · refine List.map_congr_left (fun k hk => ?_)
    have hk2 : k < n - r := List.mem_range.mp hk
    simp only [Function.comp_apply]
    rw [padTo_getD, dif_pos]
    rw [iterate_absDiff_length, hlen]
    omega
  · trans (List.range' (n - r) r).map (fun _ => SENTINEL)
    · refine List.map_congr_left (fun k hk => ?_)
      have hk2 : n - r ≤ k := (List.mem_range'_1.mp hk).1
      simp only [Function.comp_apply]
      rw [padTo_getD, dif_neg]
      rw [iterate_absDiff_length, hlen]
      omega
    · rw [map_const_eq_replicate (fun x _ => rfl), List.length_range']

/-- The non-sentinel cells of row `r` are exactly the values of the first
`n - r` sequences (all cascade values are non-negative, hence never `-99`). -/
lemma dtRow_filter (seed : List Int) (n : Nat) (hlen : seed.length = n)
    (hvals : ∀ x ∈ seed, 0 ≤ x) (r : Nat) (hr : r < n) :
    (dtRow (expectedTriangle seed n) n r).filter (fun v => v ≠ SENTINEL) =
      (List.range (n - r)).map (fun k => (absDiff^[k] seed).getD r 0) := by
  rw [dtRow_expected seed n hlen r hr, List.filter_append]
  have h1 : ((List.range (n - r)).map
      (fun k => (absDiff^[k] seed).getD r 0)).filter
        (fun v => v ≠ SENTINEL) =
      (List.range (n - r)).map (fun k => (absDiff^[k] seed).getD r 0) := by
    rw [List.filter_eq_self]
    intro a ha
    simp only [List.mem_map, List.mem_range] at ha
    obtain ⟨k, hk, rfl⟩ := ha
    have hlen2 : r < (absDiff^[k] seed).length := by
      rw [iterate_absDiff_length, hlen]
      omega
    have hmem : (absDiff^[k] seed).getD r 0 ∈ absDiff^[k] seed := by
      rw [List.getD_eq_getElem _ _ hlen2]
      exact List.getElem_mem _
    have hpos := iterate_absDiff_nonneg seed hvals k _ hmem
    simp only [ne_eq, decide_eq_true_eq, SENTINEL]
    omega
  have h2 : (List.replicate r SENTINEL).filter (fun v => v ≠ SENTINEL) = [] := by
    rw [List.filter_eq_nil_iff]
    intro a ha
    rw [List.eq_of_mem_replicate ha]
    simp
  rw [h1, h2, List.append_nil]

lemma list_sum_range_map (f : Nat → Nat) (n : Nat) :
    ((List.range n).map f).sum = ∑ i ∈ Finset.range n, f i := by
  induction n with
  | zero => rfl
  | succ n ih =>
      rw [List.range_succ, List.map_append, List.sum_append,
        Finset.sum_range_succ, ih]
      simp

lemma sum_range_sub_mul_two (n : Nat) :
    (∑ r ∈ Finset.range n, (n - r)) * 2 = n * (n + 1) := by
  have h1 : ∑ r ∈ Finset.range n, (n - r) =
      ∑ j ∈ Finset.range n, (j + 1) := by
    have h2 := Finset.sum_range_reflect (fun j => j + 1) n
    rw [← h2]
    refine Finset.sum_congr rfl (fun j hj => ?_)
    have := Finset.mem_range.mp hj
    omega
  have h3 : ∑ j ∈ Finset.range n, (j + 1) =
      ∑ i ∈ Finset.range (n + 1), i := by
    rw [Finset.sum_range_succ']
    simp
  rw [h1, h3, Finset.sum_range_id_mul_two, Nat.add_sub_cancel, Nat.mul_comm]

/-- **Flatten length invariant** for a valid cascade. -/
lemma combine_length (seed : List Int) (n : Nat) (h6 : 6 ≤ n)
    (hlen : seed.length = n) (hvals : ∀ x ∈ seed, 0 ≤ x) :
    (combine_all_values_DT (expectedTriangle seed n)).length =
      n * (n + 1) / 2 := by
  rw [combine_all_values_DT, maxRootLen_expected seed n hlen (by omega),
    List.length_flatMap]
  have hmap : (List.range n).map
      (List.length ∘ fun r =>
        (dtRow (expectedTriangle seed n) n r).filter
          (fun v => v ≠ SENTINEL)) =
      (List.range n).map (fun r => n - r) := by
    refine List.map_congr_left (fun r hr => ?_)
    have hr2 : r < n := List.mem_range.mp hr
    simp only [Function.comp_apply]
    rw [dtRow_filter seed n hlen hvals r hr2, List.length_map,
      List.length_range]
  rw [hmap, list_sum_range_map]
  have h2 := sum_range_sub_mul_two n
  generalize hM : n * (n + 1) = M at h2 ⊢
  omega

/-- **C3.**  For every valid run, the Combined Flat Sequence built by the
row-major non-sentinel scan of the Padded Table has length exactly
`N * (N + 1) / 2`. -/
theorem C3_flatten_length (seed : List Int) (n : Nat) (h6 : 6 ≤ n)
    (h15 : n ≤ 15) (hlen : seed.length = n)
    (hvals : ∀ x ∈ seed, 0 ≤ x ∧ x ≤ 9)
    (tri : List (RootName × List Int))
    (htri : buildDataTriangle seed n = some tri) :
    (combine_all_values_DT tri).length = n * (n + 1) / 2 := by
  have heq := buildDataTriangle_eq seed n h6
  rw [htri] at heq
  obtain rfl : tri = expectedTriangle seed n := by
    exact Option.some.inj heq
  exact combine_length seed n h6 hlen (fun x hx => (hvals x hx).1)

/-- Witness for C3 at `N = 6`, `Seed = [3,5,2,8,1,4]`:
the flat sequence has length `21 = 6*7/2`. -/
theorem C3_flatten_length_witness :
    ((6 : Nat) ≤ 6 ∧ (6 : Nat) ≤ 15 ∧
      ([3, 5, 2, 8, 1, 4] : List Int).length = 6 ∧
      (∀ x ∈ ([3, 5, 2, 8, 1, 4] : List Int), 0 ≤ x ∧ x ≤ 9) ∧
      buildDataTriangle [3, 5, 2, 8, 1, 4] 6 =
        some (expectedTriangle [3, 5, 2, 8, 1, 4] 6)) ∧
    (combine_all_values_DT (expectedTriangle [3, 5, 2, 8, 1, 4] 6)).length =
      6 * (6 + 1) / 2 :=
  ⟨⟨by decide, by decide, by decide, by decide, by decide⟩,
    C3_flatten_length [3, 5, 2, 8, 1, 4] 6 (by decide) (by decide)
      (by decide) (by decide) (expectedTriangle [3, 5, 2, 8, 1, 4] 6)
      (by decide)⟩

/-! ## Step 11: Trend-Code Sequence (PVA) -/

/-- Step 11 (`create_pva_array`): one code per adjacent pair of the Combined
Flat Sequence (1 = increase, 0 = decrease, 2 = equal) plus terminator 3. -/
def create_pva_array (combined : List Int) : List Int :=
  ((combined.zip combined.tail).map
    (fun p => if p.2 > p.1 then (1 : Int) else if p.2 < p.1 then 0 else 2))
    ++ [3]

/-- The behaviour claimed for the Trend-Code Sequence: same length as the
flat sequence, terminator 3 last, all other codes in `{0,1,2}` determined by
the pairwise comparison. -/
def pvaSpec (flat pva : List Int) : Prop :=
  pva.length = flat.length ∧
  pva.getLast? = some 3 ∧
  (∀ i, i + 1 < flat.length →
    (pva.getD i 99 = 0 ∨ pva.getD i 99 = 1 ∨ pva.getD i 99 = 2)) ∧
  (∀ i, i + 1 < flat.length →
    pva.getD i 99 =
      if flat.getD (i + 1) 0 > flat.getD i 0 then 1
      else if flat.getD (i + 1) 0 < flat.getD i 0 then 0 else 2)

lemma pva_getD (combined : List Int) (i : Nat) (h : i + 1 < combined.length) :
    (create_pva_array combined).getD i 99 =
      if combined.getD (i + 1) 0 > combined.getD i 0 then 1
      else if combined.getD (i + 1) 0 < combined.getD i 0 then 0 else 2 := by
  have hzlen : i < (combined.zip combined.tail).length := by
    rw [List.length_zip, List.length_tail]
    omega
  have hmlen : i < ((combined.zip combined.tail).map
      (fun p => if p.2 > p.1 then (1 : Int)
        else if p.2 < p.1 then 0 else 2)).length := by
    rw [List.length_map]
    exact hzlen
  rw [create_pva_array, List.getD_append _ _ _ _ hmlen,
    List.getD_eq_getElem _ _ hmlen, List.getElem_map, List.getElem_zip,
    List.getElem_tail,
    List.getD_eq_getElem _ _ (show i + 1 < combined.length by omega),
    List.getD_eq_getElem _ _ (show i < combined.length by omega)]

lemma create_pva_array_spec (combined : List Int) (hne : combined ≠ []) :
    pvaSpec combined (create_pva_array combined) := by
  have hlen1 : 1 ≤ combined.length := List.length_pos.mpr hne
  refine ⟨?_, ?_, ?_, fun i hi => pva_getD combined i hi⟩
  · rw [create_pva_array, List.length_append, List.length_map,
      List.length_zip, List.length_tail]
    simp only [List.length_cons, List.length_nil]
    omega
  · exact List.getLast?_concat _
  · intro i hi
    rw [pva_getD combined i hi]
    split
    · right; left; rfl
    · split
      · left; rfl
      · right; right; rfl

/-- **C4.**  For every valid run, the Trend-Code Sequence has the same
length as the Combined Flat Sequence, ends in the terminator 3, and every
other element is the comparison code (1 increase / 0 decrease / 2 equal)
of the corresponding adjacent pair, in particular in `{0,1,2}`. -/
theorem C4_pva (seed : List Int) (n : Nat) (h6 : 6 ≤ n) (h15 : n ≤ 15)
    (hlen : seed.length = n) (hvals : ∀ x ∈ seed, 0 ≤ x ∧ x ≤ 9)
    (tri : List (RootName × List Int))
    (htri : buildDataTriangle seed n = some tri) :
    pvaSpec (combine_all_values_DT tri)
      (create_pva_array (combine_all_values_DT tri)) := by
  have heq := buildDataTriangle_eq seed n h6
  rw [htri] at heq
  obtain rfl : tri = expectedTriangle seed n := Option.some.inj heq
  have hflat := combine_length seed n h6 hlen (fun x hx => (hvals x hx).1)
  refine create_pva_array_spec _ (fun hnil => ?_)
  rw [hnil] at hflat
  have h42 : 42 ≤ n * (n + 1) := by
    have h67 : 6 * 7 ≤ n * (n + 1) := Nat.mul_le_mul h6 (by omega)
    omega
  have h21 : 42 / 2 ≤ n * (n + 1) / 2 := Nat.div_le_div_right h42
  simp only [List.length_nil] at hflat
  omega

/-- Witness for C4 at `N = 6`, `Seed = [3,5,2,8,1,4]`. -/
theorem C4_pva_witness :
    ((6 : Nat) ≤ 6 ∧ (6 : Nat) ≤ 15 ∧
      ([3, 5, 2, 8, 1, 4] : List Int).length = 6 ∧
      (∀ x ∈ ([3, 5, 2, 8, 1, 4] : List Int), 0 ≤ x ∧ x ≤ 9) ∧
      buildDataTriangle [3, 5, 2, 8, 1, 4] 6 =
        some (expectedTriangle [3, 5, 2, 8, 1, 4] 6)) ∧
    pvaSpec (combine_all_values_DT (expectedTriangle [3, 5, 2, 8, 1, 4] 6))
      (create_pva_array
        (combine_all_values_DT (expectedTriangle [3, 5, 2, 8, 1, 4] 6))) :=
  ⟨⟨by decide, by decide, by decide, by decide, by decide⟩,
    C4_pva [3, 5, 2, 8, 1, 4] 6 (by decide) (by decide) (by decide)
      (by decide) (expectedTriangle [3, 5, 2, 8, 1, 4] 6) (by decide)⟩

/-! ## Steps 13–18: Modulation Matrix and Alpha Roots -/

/-- Step 13 (`create_PVA_Mods`): N×N matrix tiled cyclically from the PVA
array.  The Python code advances `current_index = (current_index + 1) %
array_length` starting from 0, so the index used at cell `(r, c)` — the
`r*N+c`-th cell visited in row-major order — is `(r*N+c) % len(pva)`. -/
def create_PVA_Mods (pva : List Int) (n : Nat) : List (List Int) :=
  (List.range n).map (fun r =>
    (List.range n).map (fun c => pva.getD ((r * n + c) % pva.length) 0))

/-- Cell `(r, c)` of the Data-Triangle DataFrame (`DT_df.iloc[r, c]`). -/
def dtCell (tri : List (RootName × List Int)) (m r c : Nat) : Int :=
  (padTo ((tri.getD c (.chi, [])).2) m).getD r SENTINEL

/-- Step 15 (`create_alpha_roots_rows`): the first `N-3` rows of the
Data-Triangle DataFrame with sentinel entries removed
(`row[row != -99]`). -/
def create_alpha_roots_rows (tri : List (RootName × List Int)) (n : Nat) :
    List (List Int) :=
  (((List.range (maxRootLen tri)).map
      (fun r => dtRow tri (maxRootLen tri) r)).take (n - 3)).map
    (fun row => row.filter (fun v => v ≠ SENTINEL))

/-- Step 16 (`create_alpha_roots_post_pivot`): for each column from the
epsilon column (`DT_df.columns.get_loc("epsilon_root") = 3` in declared
order) to the last column, the reversed anti-diagonal
`[DT_df.iloc[i, c-i] for i in range(min(num_rows, c+1))]`. -/
def create_alpha_roots_post_pivot (tri : List (RootName × List Int)) :
    List (List Int) :=
  (List.range' 3 (tri.length - 3)).map (fun c =>
    ((List.range (min (maxRootLen tri) (c + 1))).map
      (fun i => dtCell tri (maxRootLen tri) i (c - i))).reverse)

/-- Step 17 (`combine_alpha_roots`): row-kind roots first, then
diagonal-kind roots, numbered consecutively. -/
def combine_alpha_roots (rows post : List (List Int)) : List (List Int) :=
  rows ++ post

/-- Step 18 (`create_alpha_roots_dataframe`): the ragged roots assembled
into a rectangular table (`fillna(-99).astype(int)`). -/
def create_alpha_roots_dataframe (roots : List (List Int)) :
    List (List Int) :=
  roots.map (fun r => padTo r ((roots.map List.length).foldr max 0))

/-- Spec §4.4 wording for row-kind roots: "row r's cells with *trailing*
SENTINEL entries stripped". -/
def dropTrailingSentinels (l : List Int) : List Int :=
  (l.reverse.dropWhile (fun v => v = SENTINEL)).reverse

/-- The Alpha Root list as the spec/claim describe it: row-kind roots
(rows `0..N-4`, trailing sentinels stripped) in order. -/
def rowRootsSpec (tri : List (RootName × List Int)) (n : Nat) :
    List (List Int) :=
  (List.range (n - 3)).map (fun r => dropTrailingSentinels (dtRow tri n r))

/-- Diagonal-kind roots as the claim describes them: for each column `c`
from 3 to `N-1`, the reversed anti-diagonal
`[table[i][c-i] for i in 0..min(N, c+1)-1]`. -/
def diagRootsSpec (tri : List (RootName × List Int)) (n : Nat) :
    List (List Int) :=
  (List.range' 3 (n - 3)).map (fun c =>
    ((List.range (min n (c + 1))).map
      (fun i => dtCell tri n i (c - i))).reverse)

lemma dropWhile_replicate_append (p : Int → Bool) (r : Nat) (c : Int)
    (l : List Int) (hc : p c = true) :
    (List.replicate r c ++ l).dropWhile p = l.dropWhile p := by
  induction r with
  | zero => rfl
  | succ r ih =>
      rw [List.replicate_succ, List.cons_append, List.dropWhile_cons,
        hc, if_pos rfl, ih]

lemma dropWhile_eq_self_of_forall (p : Int → Bool) (l : List Int)
    (h : ∀ x ∈ l, p x = false) : l.dropWhile p = l := by
  cases l with
  | nil => rfl
  | cons a l =>
      rw [List.dropWhile_cons, h a (List.mem_cons_self _ _)]
      simp

lemma dropTrailingSentinels_append_replicate (A : List Int) (r : Nat)
    (hA : ∀ x ∈ A, x ≠ SENTINEL) :
    dropTrailingSentinels (A ++ List.replicate r SENTINEL) = A := by
  rw [dropTrailingSentinels, List.reverse_append, List.reverse_replicate,
    dropWhile_replicate_append _ _ _ _ (by simp),
    dropWhile_eq_self_of_forall _ _ ?_, List.reverse_reverse]
  intro x hx
  have hne := hA x (List.mem_reverse.mp hx)
  simpa using hne

lemma valuesPart_nonneg (seed : List Int) (n : Nat)
    (hvals : ∀ x ∈ seed, 0 ≤ x) (r : Nat) :
    ∀ x ∈ (List.range (n - r)).map
        (fun k => (absDiff^[k] seed).getD r 0), 0 ≤ x := by
  intro x hx
  simp only [List.mem_map, List.mem_range] at hx
  obtain ⟨k, -, rfl⟩ := hx
  by_cases hr2 : r < (absDiff^[k] seed).length
  · have hmem : (absDiff^[k] seed).getD r 0 ∈ absDiff^[k] seed := by
      rw [List.getD_eq_getElem _ _ hr2]
      exact List.getElem_mem _
    exact iterate_absDiff_nonneg seed hvals k _ hmem
  · rw [List.getD_eq_getElem?_getD, List.getElem?_eq_none (by omega)]
    simp

lemma dtRow_dropTrailing (seed : List Int) (n : Nat)
    (hlen : seed.length = n) (hvals : ∀ x ∈ seed, 0 ≤ x)
    (r : Nat) (hr : r < n) :
    dropTrailingSentinels (dtRow (expectedTriangle seed n) n r) =
      (List.range (n - r)).map (fun k => (absDiff^[k] seed).getD r 0) := by
  rw [dtRow_expected seed n hlen r hr]
  refine dropTrailingSentinels_append_replicate _ _ (fun x hx => ?_)
  have hpos := valuesPart_nonneg seed n hvals r x hx
  simp only [SENTINEL]
  omega

lemma expectedTriangle_length (seed : List Int) (n : Nat) :
    (expectedTriangle seed n).length = n := by
  rw [expectedTriangle, List.length_map, List.length_range]

/-- The code's `row[row != -99]` filter agrees with the spec's
trailing-sentinel stripping on every row of a valid Padded Table. -/
lemma rows_part_eq (seed : List Int) (n : Nat) (h6 : 6 ≤ n)
    (hlen : seed.length = n) (hvals : ∀ x ∈ seed, 0 ≤ x) :
    create_alpha_roots_rows (expectedTriangle seed n) n =
      rowRootsSpec (expectedTriangle seed n) n := by
  have hmax : maxRootLen (expectedTriangle seed n) = n :=
    maxRootLen_expected seed n hlen (by omega)
  rw [create_alpha_roots_rows, rowRootsSpec, hmax, ← List.map_take,
    List.take_range, show (n - 3) ⊓ n = n - 3 by omega, List.map_map]
  refine List.map_congr_left (fun r hr => ?_)
  have hr2 : r < n - 3 := by
    have := List.mem_range.mp hr
    omega
  simp only [Function.comp_apply]
  rw [dtRow_filter seed n hlen hvals r (by omega),
    dtRow_dropTrailing seed n hlen hvals r (by omega)]

lemma diag_part_eq (seed : List Int) (n : Nat) (h6 : 6 ≤ n)
    (hlen : seed.length = n) :
    create_alpha_roots_post_pivot (expectedTriangle seed n) =
      diagRootsSpec (expectedTriangle seed n) n := by
  have hmax : maxRootLen (expectedTriangle seed n) = n :=
    maxRootLen_expected seed n hlen (by omega)
  rw [create_alpha_roots_post_pivot, diagRootsSpec, hmax,
    expectedTriangle_length]

/-- **C5.**  For every valid run, the Alpha Root Extractor yields exactly
`2N-6` roots: first the `N-3` row-kind roots (Padded Table rows `0..N-4`
with trailing sentinels stripped — the code's `row[row != -99]` filter
agrees with trailing stripping because sentinels only occur at the end of
a row), then the `N-3` diagonal-kind roots (columns 3 to `N-1`, reversed
anti-diagonals). -/
theorem C5_alpha_roots (seed : List Int) (n : Nat) (h6 : 6 ≤ n)
    (h15 : n ≤ 15) (hlen : seed.length = n)
    (hvals : ∀ x ∈ seed, 0 ≤ x ∧ x ≤ 9)
    (tri : List (RootName × List Int))
    (htri : buildDataTriangle seed n = some tri) :
    combine_alpha_roots (create_alpha_roots_rows tri n)
        (create_alpha_roots_post_pivot tri) =
      rowRootsSpec tri n ++ diagRootsSpec tri n ∧
    (create_alpha_roots_rows tri n).length = n - 3 ∧
    (create_alpha_roots_post_pivot tri).length = n - 3 ∧
    (combine_alpha_roots (create_alpha_roots_rows tri n)
        (create_alpha_roots_post_pivot tri)).length = 2 * n - 6 := by
  have heq := buildDataTriangle_eq seed n h6
  rw [htri] at heq
  obtain rfl : tri = expectedTriangle seed n := Option.some.inj heq
  have hrows := rows_part_eq seed n h6 hlen (fun x hx => (hvals x hx).1)
  have hdiag := diag_part_eq seed n h6 hlen
  refine ⟨?_, ?_, ?_, ?_⟩
  · rw [combine_alpha_roots, hrows, hdiag]
  · rw [hrows, rowRootsSpec, List.length_map, List.length_range]
  · rw [hdiag, diagRootsSpec, List.length_map, List.length_range']
  · rw [combine_alpha_roots, List.length_append, hrows, hdiag,
      rowRootsSpec, diagRootsSpec, List.length_map, List.length_map,
      List.length_range, List.length_range']
    omega

/-- Witness for C5 at `N = 6`, `Seed = [3,5,2,8,1,4]`: 6 alpha roots. -/
theorem C5_alpha_roots_witness :
    ((6 : Nat) ≤ 6 ∧ (6 : Nat) ≤ 15 ∧
      ([3, 5, 2, 8, 1, 4] : List Int).length = 6 ∧
      (∀ x ∈ ([3, 5, 2, 8, 1, 4] : List Int), 0 ≤ x ∧ x ≤ 9) ∧
      buildDataTriangle [3, 5, 2, 8, 1, 4] 6 =
        some (expectedTriangle [3, 5, 2, 8, 1, 4] 6)) ∧
    (combine_alpha_roots
        (create_alpha_roots_rows (expectedTriangle [3, 5, 2, 8, 1, 4] 6) 6)
        (create_alpha_roots_post_pivot
          (expectedTriangle [3, 5, 2, 8, 1, 4] 6)) =
      rowRootsSpec (expectedTriangle [3, 5, 2, 8, 1, 4] 6) 6 ++
        diagRootsSpec (expectedTriangle [3, 5, 2, 8, 1, 4] 6) 6 ∧
    (create_alpha_roots_rows
        (expectedTriangle [3, 5, 2, 8, 1, 4] 6) 6).length = 6 - 3 ∧
    (create_alpha_roots_post_pivot
        (expectedTriangle [3, 5, 2, 8, 1, 4] 6)).length = 6 - 3 ∧
    (combine_alpha_roots
        (create_alpha_roots_rows (expectedTriangle [3, 5, 2, 8, 1, 4] 6) 6)
        (create_alpha_roots_post_pivot
          (expectedTriangle [3, 5, 2, 8, 1, 4] 6))).length = 2 * 6 - 6) :=
  ⟨⟨by decide, by decide, by decide, by decide, by decide⟩,
    C5_alpha_roots [3, 5, 2, 8, 1, 4] 6 (by decide) (by decide) (by decide)
      (by decide) (expectedTriangle [3, 5, 2, 8, 1, 4] 6) (by decide)⟩

/-! ## Step 19: Alpha Records

Step 19 (`create_alpha`) contains the pipeline's only two random
fallbacks:

* `np.random.choice(all_repeater_values)` — draws one element of the
  repeater-source pool; modelled by an oracle-supplied position into the
  pool (taken modulo its length, so the draw is always an actual pool
  element, as `np.random.choice` guarantees);
* `self.PVA_Mods_df.sample(n=1)` — draws one row of the Modulation Matrix
  DataFrame; modelled by an oracle-supplied row index (modulo the row
  count).

The label test `adjusted_index in self.PVA_Mods_df.index` compares the
string `alpha_i_PV_mod` (derived from record key `alpha_root_i`) against
the labels `alpha_j_PV_mod`, `j < N`; since these strings are in bijection
with their indices, the test holds exactly when `i < N`, which is how it
is modelled here. -/

/-- Outcomes of the random draws of a run, indexed by record number. -/
structure Oracle where
  poolDraw : Nat → Nat
  rowDraw : Nat → Nat

/-- One Alpha Record (`self.alpha_values[...]`). -/
structure AlphaValue where
  A_Root : List Int
  A_Root_Copy : List Int
  Alpha_PV_Mod : List Int
  Repeater : Int
deriving DecidableEq, Repr

/-- `all_repeater_values`: every non-sentinel cell of the Alpha Root Table
from column 4 onward, row-major
(`df.iloc[:, 4:].replace(-99, nan).stack().dropna()`). -/
def repeaterPool (df : List (List Int)) : List Int :=
  (df.map (fun row => (row.drop 4).filter (fun v => v ≠ SENTINEL))).flatten

/-- Step 19 (`create_alpha`). -/
def create_alpha (df : List (List Int)) (pvaMods : List (List Int))
    (o : Oracle) : List AlphaValue :=
  (List.range df.length).map (fun i =>
    let row := df.getD i []
    let root := row.take 4
    let validRep := (row.drop 4).filter (fun v => v ≠ SENTINEL)
    let rsum := validRep.sum
    { A_Root := root
      A_Root_Copy := root
      Alpha_PV_Mod :=
        if i < pvaMods.length then pvaMods.getD i []
        else pvaMods.getD (o.rowDraw i % pvaMods.length) []
      Repeater :=
        if rsum = 0 then
          if repeaterPool df ≠ [] then
            (repeaterPool df).getD
              (o.poolDraw i % (repeaterPool df).length) 0
          else -1
        else rsum })

/-- The Alpha Root Table of a run (steps 2–18). -/
def runAlphaRootsDf (seed : List Int) (n : Nat) : List (List Int) :=
  match buildDataTriangle seed n with
  | none => []
  | some tri =>
      create_alpha_roots_dataframe
        (combine_alpha_roots (create_alpha_roots_rows tri n)
          (create_alpha_roots_post_pivot tri))

/-- The Modulation Matrix of a run (steps 2–13). -/
def runPVAMods (seed : List Int) (n : Nat) : List (List Int) :=
  match buildDataTriangle seed n with
  | none => []
  | some tri => create_PVA_Mods (create_pva_array (combine_all_values_DT tri)) n

/-- The Alpha Records of a run (steps 2–19). -/
def runAlphaValues (seed : List Int) (n : Nat) (o : Oracle) :
    List AlphaValue :=
  create_alpha (runAlphaRootsDf seed n) (runPVAMods seed n) o

lemma create_PVA_Mods_length (pva : List Int) (n : Nat) :
    (create_PVA_Mods pva n).length = n := by
  rw [create_PVA_Mods, List.length_map, List.length_range]

lemma create_alpha_length (df : List (List Int)) (pvaMods : List (List Int))
    (o : Oracle) : (create_alpha df pvaMods o).length = df.length := by
  rw [create_alpha, List.length_map, List.length_range]

lemma create_alpha_getD (df : List (List Int)) (pvaMods : List (List Int))
    (o : Oracle) (i : Nat) (hi : i < df.length) (d : AlphaValue) :
    (create_alpha df pvaMods o).getD i d =
      { A_Root := (df.getD i []).take 4
        A_Root_Copy := (df.getD i []).take 4
        Alpha_PV_Mod :=
          if i < pvaMods.length then pvaMods.getD i []
          else pvaMods.getD (o.rowDraw i % pvaMods.length) []
        Repeater :=
          if (((df.getD i []).drop 4).filter (fun v => v ≠ SENTINEL)).sum
              = 0 then
            if repeaterPool df ≠ [] then
              (repeaterPool df).getD
                (o.poolDraw i % (repeaterPool df).length) 0
            else -1
          else (((df.getD i []).drop 4).filter
            (fun v => v ≠ SENTINEL)).sum } := by
  have hlen : i < (create_alpha df pvaMods o).length := by
    rw [create_alpha_length]
    exact hi
  rw [List.getD_eq_getElem _ _ hlen]
  simp only [create_alpha, List.getElem_map, List.getElem_range]

lemma runAlphaRootsDf_eq (seed : List Int) (n : Nat) (h6 : 6 ≤ n) :
    runAlphaRootsDf seed n =
      create_alpha_roots_dataframe
        (combine_alpha_roots
          (create_alpha_roots_rows (expectedTriangle seed n) n)
          (create_alpha_roots_post_pivot (expectedTriangle seed n))) := by
  rw [runAlphaRootsDf, buildDataTriangle_eq seed n h6]

lemma runPVAMods_eq (seed : List Int) (n : Nat) (h6 : 6 ≤ n) :
    runPVAMods seed n =
      create_PVA_Mods
        (create_pva_array
          (combine_all_values_DT (expectedTriangle seed n))) n := by
  rw [runPVAMods, buildDataTriangle_eq seed n h6]

lemma runPVAMods_length (seed : List Int) (n : Nat) (h6 : 6 ≤ n) :
    (runPVAMods seed n).length = n := by
  rw [runPVAMods_eq seed n h6, create_PVA_Mods_length]

lemma runAlphaRootsDf_length (seed : List Int) (n : Nat) (h6 : 6 ≤ n)
    (hlen : seed.length = n) (hvals : ∀ x ∈ seed, 0 ≤ x) :
    (runAlphaRootsDf seed n).length = 2 * n - 6 := by
  rw [runAlphaRootsDf_eq seed n h6, create_alpha_roots_dataframe,
    List.length_map, combine_alpha_roots, List.length_append,
    rows_part_eq seed n h6 hlen hvals, diag_part_eq seed n h6 hlen,
    rowRootsSpec, diagRootsSpec, List.length_map, List.length_map,
    List.length_range, List.length_range']
  omega

/-- **C9.**  For every valid `N ≥ 7`, the Modulation Matrix DataFrame has
exactly `N` labeled selector rows while there are `2N-6 > N` Alpha
Records, so every record with index `N ≤ i ≤ 2N-7` misses the label
lookup and always takes its `Alpha_PV_Mod` from the random-row fallback;
only for `N = 6` does every record receive its matching labeled row. -/
theorem C9_modulation_fallback (seed : List Int) (n : Nat) (h6 : 6 ≤ n)
    (h15 : n ≤ 15) (hlen : seed.length = n)
    (hvals : ∀ x ∈ seed, 0 ≤ x ∧ x ≤ 9) (o : Oracle) :
    (runPVAMods seed n).length = n ∧
    (runAlphaValues seed n o).length = 2 * n - 6 ∧
    (7 ≤ n → ∀ i, n ≤ i → i ≤ 2 * n - 7 →
      ((runAlphaValues seed n o).getD i ⟨[], [], [], 0⟩).Alpha_PV_Mod =
        (runPVAMods seed n).getD (o.rowDraw i % n) []) ∧
    (n = 6 → ∀ i, i < 2 * n - 6 →
      ((runAlphaValues seed n o).getD i ⟨[], [], [], 0⟩).Alpha_PV_Mod =
        (runPVAMods seed n).getD i []) := by
  have hvn : ∀ x ∈ seed, 0 ≤ x := fun x hx => (hvals x hx).1
  have hml := runPVAMods_length seed n h6
  have hdfl := runAlphaRootsDf_length seed n h6 hlen hvn
  refine ⟨hml, ?_, ?_, ?_⟩
  · rw [runAlphaValues, create_alpha_length, hdfl]
  · intro h7 i hni hi2
    have hidf : i < (runAlphaRootsDf seed n).length := by omega
    rw [runAlphaValues, create_alpha_getD _ _ _ _ hidf]
    simp only [hml]
    rw [if_neg (by omega)]
  · intro h6eq i hi
    have hidf : i < (runAlphaRootsDf seed n).length := by omega
    rw [runAlphaValues, create_alpha_getD _ _ _ _ hidf]
    simp only [hml]
    rw [if_pos (by omega)]

/-- Witness for C9 at `N = 7`, `Seed = [3,5,2,8,1,4,0]` with a constant
oracle: records 7 .. 7 take the fallback row. -/
theorem C9_modulation_fallback_witness :
    ((6 : Nat) ≤ 7 ∧ (7 : Nat) ≤ 15 ∧
      ([3, 5, 2, 8, 1, 4, 0] : List Int).length = 7 ∧
      (∀ x ∈ ([3, 5, 2, 8, 1, 4, 0] : List Int), 0 ≤ x ∧ x ≤ 9)) ∧
    ((runPVAMods [3, 5, 2, 8, 1, 4, 0] 7).length = 7 ∧
    (runAlphaValues [3, 5, 2, 8, 1, 4, 0] 7
        ⟨fun _ => 0, fun _ => 0⟩).length = 2 * 7 - 6 ∧
    (7 ≤ 7 → ∀ i, 7 ≤ i → i ≤ 2 * 7 - 7 →
      ((runAlphaValues [3, 5, 2, 8, 1, 4, 0] 7
          ⟨fun _ => 0, fun _ => 0⟩).getD i ⟨[], [], [], 0⟩).Alpha_PV_Mod =
        (runPVAMods [3, 5, 2, 8, 1, 4, 0] 7).getD
          ((Oracle.mk (fun _ => 0) (fun _ => 0)).rowDraw i % 7) []) ∧
    ((7 : Nat) = 6 → ∀ i, i < 2 * 7 - 6 →
      ((runAlphaValues [3, 5, 2, 8, 1, 4, 0] 7
          ⟨fun _ => 0, fun _ => 0⟩).getD i ⟨[], [], [], 0⟩).Alpha_PV_Mod =
        (runPVAMods [3, 5, 2, 8, 1, 4, 0] 7).getD i [])) :=
  ⟨⟨by decide, by decide, by decide, by decide⟩,
    C9_modulation_fallback [3, 5, 2, 8, 1, 4, 0] 7 (by decide) (by decide)
      (by decide) (by decide) ⟨fun _ => 0, fun _ => 0⟩⟩

/-! ## Facts about the Alpha Root Table needed for the repeater pool -/

lemma expectedTriangle_getD (seed : List Int) (n c : Nat) (hc : c < n) :
    (expectedTriangle seed n).getD c (.chi, []) =
      (seqName c, absDiff^[c] seed) := by
  have hc2 : c < (expectedTriangle seed n).length := by
    rw [expectedTriangle_length]
    exact hc
  rw [List.getD_eq_getElem _ _ hc2]
  simp only [expectedTriangle, List.getElem_map, List.getElem_range]

lemma dtCell_expected (seed : List Int) (n : Nat) (hlen : seed.length = n)
    (r c : Nat) (hc : c < n) :
    dtCell (expectedTriangle seed n) n r c =
      if r < n - c then (absDiff^[c] seed).getD r 0 else SENTINEL := by
  rw [dtCell, expectedTriangle_getD seed n c hc, padTo_getD]
  by_cases hr : r < (absDiff^[c] seed).length
  · rw [dif_pos hr, if_pos]
    rw [← hlen, ← iterate_absDiff_length seed c]
    exact hr
  · rw [dif_neg hr, if_neg]
    rw [iterate_absDiff_length, hlen] at hr
    exact hr

lemma getD_nonneg_of_mem_nonneg {l : List Int}
    (h : ∀ x ∈ l, 0 ≤ x) (r : Nat) : 0 ≤ l.getD r 0 := by
  by_cases hr : r < l.length
  · rw [List.getD_eq_getElem _ _ hr]
    exact h _ (List.getElem_mem hr)
  · rw [List.getD_eq_getElem?_getD, List.getElem?_eq_none (by omega)]
    simp

/-- Every Alpha Root of a valid run has length at most `N` and only
non-negative entries. -/
lemma roots_spec_facts (seed : List Int) (n : Nat) (h6 : 6 ≤ n)
    (hlen : seed.length = n) (hvals : ∀ x ∈ seed, 0 ≤ x) :
    ∀ root ∈ rowRootsSpec (expectedTriangle seed n) n ++
        diagRootsSpec (expectedTriangle seed n) n,
      root.length ≤ n ∧ ∀ x ∈ root, 0 ≤ x := by
  intro root hroot
  rcases List.mem_append.mp hroot with h | h
  · rw [rowRootsSpec] at h
    simp only [List.mem_map, List.mem_range] at h
    obtain ⟨r, hr, rfl⟩ := h
    rw [dtRow_dropTrailing seed n hlen hvals r (by omega)]
    constructor
    · rw [List.length_map, List.length_range]
      omega
    · exact valuesPart_nonneg seed n hvals r
  · rw [diagRootsSpec] at h
    simp only [List.mem_map, List.mem_range'_1] at h
    obtain ⟨c, hc, rfl⟩ := h
    constructor
    · rw [List.length_reverse, List.length_map, List.length_range]
      omega
    · intro x hx
      rw [List.mem_reverse] at hx
      simp only [List.mem_map, List.mem_range] at hx
      obtain ⟨i, hi, rfl⟩ := hx
      have hci : c - i < n := by omega
      rw [dtCell_expected seed n hlen i (c - i) hci, if_pos (by omega)]
      refine getD_nonneg_of_mem_nonneg ?_ i
      exact iterate_absDiff_nonneg seed hvals (c - i)

lemma padTo_eq_self (l : List Int) : padTo l l.length = l := by
  simp [padTo]

/-- The first Alpha Root (row 0 trailing-stripped) of a valid run: the
first element of every sequence, a full-length row of `N` values. -/
lemma roots_spec_head (seed : List Int) (n : Nat) (h6 : 6 ≤ n)
    (hlen : seed.length = n) (hvals : ∀ x ∈ seed, 0 ≤ x) :
    (rowRootsSpec (expectedTriangle seed n) n ++
        diagRootsSpec (expectedTriangle seed n) n).getD 0 [] =
      (List.range n).map (fun k => (absDiff^[k] seed).getD 0 0) := by
  have h0 : 0 < (rowRootsSpec (expectedTriangle seed n) n).length := by
    rw [rowRootsSpec, List.length_map, List.length_range]
    omega
  have happ : 0 < (rowRootsSpec (expectedTriangle seed n) n ++
      diagRootsSpec (expectedTriangle seed n) n).length := by
    rw [List.length_append]
    omega
  rw [List.getD_eq_getElem _ _ happ, List.getElem_append_left h0,
    ← List.getD_eq_getElem _ [] h0, rowRootsSpec]
  have h03 : 0 < n - 3 := by omega
  have h0r : 0 < ((List.range (n - 3)).map
      (fun r => dropTrailingSentinels
        (dtRow (expectedTriangle seed n) n r))).length := by
    rw [List.length_map, List.length_range]
    omega
  rw [List.getD_eq_getElem _ _ h0r, List.getElem_map, List.getElem_range,
    dtRow_dropTrailing seed n hlen hvals 0 (by omega)]
  rw [Nat.sub_zero]

/-- Width of the Alpha Root Table of a valid run. -/
lemma roots_width (seed : List Int) (n : Nat) (h6 : 6 ≤ n)
    (hlen : seed.length = n) (hvals : ∀ x ∈ seed, 0 ≤ x) :
    (((rowRootsSpec (expectedTriangle seed n) n ++
        diagRootsSpec (expectedTriangle seed n) n).map
          List.length).foldr max 0) = n := by
  refine Nat.le_antisymm (foldr_max_le ?_) (le_foldr_max ?_)
  · intro x hx
    simp only [List.mem_map] at hx
    obtain ⟨root, hroot, rfl⟩ := hx
    exact (roots_spec_facts seed n h6 hlen hvals root hroot).1
  · have hmem : (rowRootsSpec (expectedTriangle seed n) n ++
        diagRootsSpec (expectedTriangle seed n) n).getD 0 [] ∈
        rowRootsSpec (expectedTriangle seed n) n ++
          diagRootsSpec (expectedTriangle seed n) n := by
      have happ : 0 < (rowRootsSpec (expectedTriangle seed n) n ++
          diagRootsSpec (expectedTriangle seed n) n).length := by
        rw [List.length_append, rowRootsSpec, List.length_map,
          List.length_range]
        omega
      rw [List.getD_eq_getElem _ _ happ]
      exact List.getElem_mem happ
    refine List.mem_map.mpr ⟨_, hmem, ?_⟩
    rw [roots_spec_head seed n h6 hlen hvals, List.length_map,
      List.length_range]

lemma runAlphaRootsDf_spec (seed : List Int) (n : Nat) (h6 : 6 ≤ n)
    (hlen : seed.length = n) (hvals : ∀ x ∈ seed, 0 ≤ x) :
    runAlphaRootsDf seed n =
      (rowRootsSpec (expectedTriangle seed n) n ++
        diagRootsSpec (expectedTriangle seed n) n).map
          (fun r => padTo r n) := by
  rw [runAlphaRootsDf_eq seed n h6, create_alpha_roots_dataframe,
    combine_alpha_roots, rows_part_eq seed n h6 hlen hvals,
    diag_part_eq seed n h6 hlen, roots_width seed n h6 hlen hvals]

lemma repeaterPool_ne_nil (seed : List Int) (n : Nat) (h6 : 6 ≤ n)
    (hlen : seed.length = n) (hvals : ∀ x ∈ seed, 0 ≤ x) :
    repeaterPool (runAlphaRootsDf seed n) ≠ [] := by
  have hhead := roots_spec_head seed n h6 hlen hvals
  have hmem0 : (rowRootsSpec (expectedTriangle seed n) n ++
      diagRootsSpec (expectedTriangle seed n) n).getD 0 [] ∈
      rowRootsSpec (expectedTriangle seed n) n ++
        diagRootsSpec (expectedTriangle seed n) n := by
    have happ : 0 < (rowRootsSpec (expectedTriangle seed n) n ++
        diagRootsSpec (expectedTriangle seed n) n).length := by
      rw [List.length_append, rowRootsSpec, List.length_map,
        List.length_range]
      omega
    rw [List.getD_eq_getElem _ _ happ]
    exact List.getElem_mem happ
  set root0 : List Int :=
    (List.range n).map (fun k => (absDiff^[k] seed).getD 0 0) with hroot0
  have hlen0 : root0.length = n := by
    rw [hroot0, List.length_map, List.length_range]
  have hpad0 : padTo root0 n = root0 := by
    conv_lhs => rw [← hlen0]
    exact padTo_eq_self root0
  have hdropne : root0.drop 4 ≠ [] := by
    refine List.length_pos.mp ?_
    rw [List.length_drop, hlen0]
    omega
  obtain ⟨x, hx⟩ := List.exists_mem_of_ne_nil _ hdropne
  have hxpos : 0 ≤ x := by
    have hx0 : x ∈ root0 := List.mem_of_mem_drop hx
    rw [hroot0] at hx0
    simp only [List.mem_map, List.mem_range] at hx0
    obtain ⟨k, -, rfl⟩ := hx0
    exact getD_nonneg_of_mem_nonneg (iterate_absDiff_nonneg seed hvals k) 0
  refine List.ne_nil_of_mem (a := x) ?_
  rw [runAlphaRootsDf_spec seed n h6 hlen hvals, repeaterPool,
    List.map_map, List.mem_flatten]
  refine ⟨((padTo root0 n).drop 4).filter (fun v => v ≠ SENTINEL), ?_, ?_⟩
  · refine List.mem_map.mpr ⟨root0, ?_, rfl⟩
    rw [← hhead]
    exact hmem0
  · rw [hpad0]
    refine List.mem_filter.mpr ⟨hx, ?_⟩
    simp only [SENTINEL, ne_eq, decide_eq_true_eq]
    omega

lemma repeaterPool_nonneg (seed : List Int) (n : Nat) (h6 : 6 ≤ n)
    (hlen : seed.length = n) (hvals : ∀ x ∈ seed, 0 ≤ x) :
    ∀ x ∈ repeaterPool (runAlphaRootsDf seed n), 0 ≤ x := by
  intro x hx
  rw [runAlphaRootsDf_spec seed n h6 hlen hvals, repeaterPool,
    List.map_map, List.mem_flatten] at hx
  obtain ⟨contrib, hcontrib, hxc⟩ := hx
  simp only [List.mem_map, Function.comp_apply] at hcontrib
  obtain ⟨root, hroot, rfl⟩ := hcontrib
  have hxd := List.mem_filter.mp hxc
  have hxrow : x ∈ padTo root n := List.mem_of_mem_drop hxd.1
  rcases List.mem_append.mp hxrow with h | h
  · exact (roots_spec_facts seed n h6 hlen hvals root hroot).2 x h
  · exfalso
    have hxs := List.eq_of_mem_replicate h
    have := hxd.2
    rw [hxs] at this
    simp [SENTINEL] at this

lemma df_row_filter_nonneg (seed : List Int) (n : Nat) (h6 : 6 ≤ n)
    (hlen : seed.length = n) (hvals : ∀ x ∈ seed, 0 ≤ x) (i : Nat) :
    ∀ x ∈ (((runAlphaRootsDf seed n).getD i []).drop 4).filter
        (fun v => v ≠ SENTINEL), 0 ≤ x := by
  intro x hx
  by_cases hi : i < (runAlphaRootsDf seed n).length
  · have hrowmem : (runAlphaRootsDf seed n).getD i [] ∈
        runAlphaRootsDf seed n := by
      rw [List.getD_eq_getElem _ _ hi]
      exact List.getElem_mem hi
    rw [runAlphaRootsDf_spec seed n h6 hlen hvals] at hrowmem
    simp only [List.mem_map] at hrowmem
    obtain ⟨root, hroot, hrow⟩ := hrowmem
    have hxd := List.mem_filter.mp hx
    have hxrow : x ∈ (runAlphaRootsDf seed n).getD i [] :=
      List.mem_of_mem_drop hxd.1
    rw [runAlphaRootsDf_spec seed n h6 hlen hvals] at hxrow
    rw [← hrow] at hxrow
    rcases List.mem_append.mp hxrow with h | h
    · exact (roots_spec_facts seed n h6 hlen hvals root hroot).2 x h
    · exfalso
      have hxs := List.eq_of_mem_replicate h
      have := hxd.2
      rw [hxs] at this
      simp [SENTINEL] at this
  · rw [List.getD_eq_getElem?_getD, List.getElem?_eq_none (by omega)] at hx
    simp at hx

/-- Every record's `Repeater` of a valid run is non-negative. -/
lemma records_repeater_nonneg (seed : List Int) (n : Nat) (h6 : 6 ≤ n)
    (hlen : seed.length = n) (hvn : ∀ x ∈ seed, 0 ≤ x) (o : Oracle) :
    ∀ av ∈ runAlphaValues seed n o, 0 ≤ av.Repeater := by
  have hpool := repeaterPool_ne_nil seed n h6 hlen hvn
  intro av hav
  rw [runAlphaValues, create_alpha] at hav
  simp only [List.mem_map, List.mem_range] at hav
  obtain ⟨i, hi, rfl⟩ := hav
  dsimp only
  by_cases hsum : ((((runAlphaRootsDf seed n).getD i []).drop 4).filter
      (fun v => v ≠ SENTINEL)).sum = 0
  · rw [if_pos hsum, if_pos hpool]
    exact getD_nonneg_of_mem_nonneg
      (repeaterPool_nonneg seed n h6 hlen hvn) _
  · rw [if_neg hsum]
    exact List.sum_nonneg (df_row_filter_nonneg seed n h6 hlen hvn i)

/-- **C10.**  For every valid run the repeater-source pool (all
non-sentinel Alpha Root Table cells from column 4 onward) is non-empty —
the first, full-length root alone contributes `N-4 ≥ 2` values — so the
empty-pool fallback that sets `Repeater` to `-1` is unreachable and every
record's `Repeater` is a non-negative integer. -/
theorem C10_repeater_pool (seed : List Int) (n : Nat) (h6 : 6 ≤ n)
    (h15 : n ≤ 15) (hlen : seed.length = n)
    (hvals : ∀ x ∈ seed, 0 ≤ x ∧ x ≤ 9) (o : Oracle) :
    repeaterPool (runAlphaRootsDf seed n) ≠ [] ∧
    ∀ av ∈ runAlphaValues seed n o,
      0 ≤ av.Repeater ∧ av.Repeater ≠ -1 := by
  have hvn : ∀ x ∈ seed, 0 ≤ x := fun x hx => (hvals x hx).1
  refine ⟨repeaterPool_ne_nil seed n h6 hlen hvn, fun av hav => ?_⟩
  have hrep := records_repeater_nonneg seed n h6 hlen hvn o av hav
  exact ⟨hrep, by omega⟩

/-- Witness for C10 at `N = 6`, `Seed = [3,5,2,8,1,4]`, constant oracle. -/
theorem C10_repeater_pool_witness :
    ((6 : Nat) ≤ 6 ∧ (6 : Nat) ≤ 15 ∧
      ([3, 5, 2, 8, 1, 4] : List Int).length = 6 ∧
      (∀ x ∈ ([3, 5, 2, 8, 1, 4] : List Int), 0 ≤ x ∧ x ≤ 9)) ∧
    (repeaterPool (runAlphaRootsDf [3, 5, 2, 8, 1, 4] 6) ≠ [] ∧
    ∀ av ∈ runAlphaValues [3, 5, 2, 8, 1, 4] 6 ⟨fun _ => 0, fun _ => 0⟩,
      0 ≤ av.Repeater ∧ av.Repeater ≠ -1) :=
  ⟨⟨by decide, by decide, by decide, by decide⟩,
    C10_repeater_pool [3, 5, 2, 8, 1, 4] 6 (by decide) (by decide)
      (by decide) (by decide) ⟨fun _ => 0, fun _ => 0⟩⟩

/-! ## `phorms_mod_table.py`

The Phorms Mod Table is a `pd.DataFrame` whose index is the dict keys
`{0,1,2,3}` and whose single `Transformation` column holds the lambdas;
it is modelled as a key–function association list in index order.
Python `%` and `//` with positive right operand are floor mod/div, which
agree with Lean's Euclidean `%` and `/` on `Int` for positive divisors
(all divisors here are 7, 8 or 12).  Python list indexing
`[...][x % 7]` always hits a valid index since `x % 7 ∈ [0, 7)`, so it is
modelled by `getD (x % 7).toNat 0`, which is exact on that range. -/

def tableLookup : List (Int × (Int → Int)) → Int → Option (Int → Int)
  | [], _ => none
  | (k, f) :: rest, key => if k = key then some f else tableLookup rest key

def defaultTable : List (Int × (Int → Int)) :=
  [(0, fun x => x - 1), (1, fun x => x + 1), (2, fun x => x + 2),
    (3, fun x => x + 3)]

def incrementTable : List (Int × (Int → Int)) :=
  [(0, fun x => x + 0), (1, fun x => x + 2), (2, fun x => x + 4),
    (3, fun x => x + 6)]

def customTable : List (Int × (Int → Int)) :=
  [(0, fun x => x * 2), (1, fun x => x ^ 2), (2, fun x => x - 3),
    (3, fun x => x + 5)]

def chromaticTable : List (Int × (Int → Int)) :=
  [(0, fun x => x % 12), (1, fun x => (x + 7) % 12),
    (2, fun x => (x + 4) % 12), (3, fun x => (x + 3) % 12)]

def rhythmicTable : List (Int × (Int → Int)) :=
  [(0, fun x => x % 8), (1, fun x => (x * 2) % 8),
    (2, fun x => max 1 (x / 2)), (3, fun x => (x + 1) % 8 + 1)]

def harmonicTable : List (Int × (Int → Int)) :=
  [(0, fun x => x % 12), (1, fun x => (x + 4) % 12),
    (2, fun x => (x + 7) % 12), (3, fun x => (x + 10) % 12)]

def modalTable : List (Int × (Int → Int)) :=
  [(0, fun x => x % 7),
    (1, fun x => ([0, 2, 4, 5, 7, 9, 11] : List Int).getD (x % 7).toNat 0),
    (2, fun x => ([0, 2, 3, 5, 7, 8, 10] : List Int).getD (x % 7).toNat 0),
    (3, fun x => ([0, 1, 3, 5, 7, 8, 10] : List Int).getD (x % 7).toNat 0)]

def octaveTable : List (Int × (Int → Int)) :=
  [(0, fun x => x % 8), (1, fun x => min 7 (x + 1)),
    (2, fun x => max 0 (x - 1)), (3, fun x => 7 - x % 8)]

def supportedVersions : List String :=
  ["default", "increment", "custom", "chromatic", "rhythmic", "harmonic",
    "modal", "octave"]

/-- `phorms_mod_table(version)`; the `ValueError` raised on an unknown
version is modelled by `Except.error` carrying the message (the Python
message wraps the version name in quote characters, elided here). -/
def phorms_mod_table (version : String) :
    Except String (List (Int × (Int → Int))) :=
  if version = "default" then .ok defaultTable
  else if version = "increment" then .ok incrementTable
  else if version = "custom" then .ok customTable
  else if version = "chromatic" then .ok chromaticTable
  else if version = "rhythmic" then .ok rhythmicTable
  else if version = "harmonic" then .ok harmonicTable
  else if version = "modal" then .ok modalTable
  else if version = "octave" then .ok octaveTable
  else .error ("Unknown version " ++ version ++
    ". Available options: default, increment, custom, chromatic, rhythmic, harmonic, modal, octave.")

/-- **C7.**  `phorms_mod_table` fails (with an error naming the unknown
version) exactly when the version is not one of the eight supported names,
and for every supported version the returned table's selector keys are
exactly `{0,1,2,3}` in order. -/
theorem C7_mod_table (version : String) :
    ((∃ t, phorms_mod_table version = Except.ok t) ↔
      version ∈ supportedVersions) ∧
    (∀ t, phorms_mod_table version = Except.ok t →
      t.map Prod.fst = [0, 1, 2, 3]) ∧
    (version ∉ supportedVersions →
      phorms_mod_table version =
        Except.error ("Unknown version " ++ version ++
          ". Available options: default, increment, custom, chromatic, rhythmic, harmonic, modal, octave.")) := by
  simp only [phorms_mod_table, supportedVersions]
  split_ifs with h1 h2 h3 h4 h5 h6 h7 h8 <;>
    simp_all [defaultTable, incrementTable, customTable, chromaticTable,
      rhythmicTable, harmonicTable, modalTable, octaveTable]

/-- Witness for C7: the "default" version succeeds; an unknown name
fails. -/
theorem C7_mod_table_witness :
    (∃ t, phorms_mod_table "default" = Except.ok t) ∧
    ¬(∃ t, phorms_mod_table "bogus" = Except.ok t) :=
  ⟨(C7_mod_table "default").1.mpr (by decide),
    fun h => by
      have hmem := (C7_mod_table "bogus").1.mp h
      simp [supportedVersions] at hmem⟩

/-! ## `alpha_transformer.py`: `AlphaTransformer.transform_alpha_dataframe` -/

/-- The per-value clamp of `transform_alpha_dataframe`:
`int(f(v) % (max_value+1)) if f(v) >= 0 else max_value`. -/
def clampValue (maxValue raw : Int) : Int :=
  if raw ≥ 0 then raw % (maxValue + 1) else maxValue

/-- The pre-replication list `modified_versions`: the original `A_Root`
followed by one transformed row per selector found in the table
(`if mod in self.phorms_mod_table_df.index`). -/
def modifiedVersions (table : List (Int × (Int → Int))) (maxValue : Int)
    (av : AlphaValue) : List (List Int) :=
  av.A_Root :: av.Alpha_PV_Mod.filterMap (fun mod =>
    (tableLookup table mod).map (fun f =>
      av.A_Root_Copy.map (fun v => clampValue maxValue (f v))))

/-- Python list replication `modified_versions * Repeater`; a
non-positive count yields the empty list, exactly as in Python. -/
def pyListMul (l : List (List Int)) (k : Int) : List (List Int) :=
  (List.replicate k.toNat l).flatten

/-- `transform_alpha_dataframe`, per record: keep a single copy when
`Repeater == 0`, otherwise replicate. -/
def transform_alpha_record (table : List (Int × (Int → Int)))
    (maxValue : Int) (av : AlphaValue) : List (List Int) :=
  if av.Repeater = 0 then modifiedVersions table maxValue av
  else pyListMul (modifiedVersions table maxValue av) av.Repeater

/-- **C6.**  For every selector function `f` of every supported Phorms Mod
Table version, every transformed row is obtained by applying
`f(v) % (max_value+1)` when `f(v) ≥ 0` and exactly `max_value` when
`f(v) < 0` to each `v` of `A_Root_Copy`; the emitted values are never
negative and never exceed `max_value`. -/
theorem C6_clamp (version : String) (table : List (Int × (Int → Int)))
    (hv : version ∈ supportedVersions)
    (htab : phorms_mod_table version = Except.ok table)
    (maxValue : Int) (hmax : 0 ≤ maxValue) (av : AlphaValue) :
    ∀ row ∈ (modifiedVersions table maxValue av).tail,
      ∃ f, (∃ mod ∈ av.Alpha_PV_Mod, tableLookup table mod = some f) ∧
        row = av.A_Root_Copy.map
          (fun v => if f v ≥ 0 then f v % (maxValue + 1) else maxValue) ∧
        ∀ e ∈ row, 0 ≤ e ∧ e ≤ maxValue := by
  intro row hrow
  rw [modifiedVersions, List.tail_cons, List.mem_filterMap] at hrow
  obtain ⟨mod, hmod, hrow2⟩ := hrow
  cases hf : tableLookup table mod with
  | none =>
      rw [hf] at hrow2
      simp at hrow2
  | some f =>
      rw [hf, Option.map_some'] at hrow2
      obtain rfl := Option.some.inj hrow2
      refine ⟨f, ⟨mod, hmod, hf⟩, rfl, fun e he => ?_⟩
      simp only [List.mem_map] at he
      obtain ⟨v, -, rfl⟩ := he
      rw [clampValue]
      by_cases hraw : f v ≥ 0
      · rw [if_pos hraw]
        have hmod1 : (0 : Int) < maxValue + 1 := by omega
        have h1 := Int.emod_nonneg (f v) (show maxValue + 1 ≠ 0 by omega)
        have h2 := Int.emod_lt_of_pos (f v) hmod1
        exact ⟨h1, by omega⟩
      · rw [if_neg hraw]
        exact ⟨hmax, le_refl _⟩

/-- Witness for C6 at the "default" version, `max_value = 9`, and a
concrete record. -/
theorem C6_clamp_witness :
    ("default" ∈ supportedVersions ∧ (0 : Int) ≤ 9) ∧
    ∀ row ∈ (modifiedVersions defaultTable 9
        ⟨[3, 5, 2, 8], [3, 5, 2, 8], [0, 1, 2, 3], 2⟩).tail,
      ∃ f, (∃ mod ∈ ([0, 1, 2, 3] : List Int),
          tableLookup defaultTable mod = some f) ∧
        row = ([3, 5, 2, 8] : List Int).map
          (fun v => if f v ≥ 0 then f v % (9 + 1) else 9) ∧
        ∀ e ∈ row, 0 ≤ e ∧ e ≤ 9 :=
  ⟨⟨by decide, by decide⟩,
    C6_clamp "default" defaultTable (by decide) rfl 9 (by decide)
      ⟨[3, 5, 2, 8], [3, 5, 2, 8], [0, 1, 2, 3], 2⟩⟩

/-! ## Selector coverage and replication law -/

lemma tableLookup_isSome_of_supported (version : String)
    (table : List (Int × (Int → Int))) (hv : version ∈ supportedVersions)
    (htab : phorms_mod_table version = Except.ok table) (mod : Int)
    (hmod : mod = 0 ∨ mod = 1 ∨ mod = 2 ∨ mod = 3) :
    (tableLookup table mod).isSome := by
  simp only [supportedVersions, List.mem_cons, List.not_mem_nil,
    or_false] at hv
  rcases hv with rfl | rfl | rfl | rfl | rfl | rfl | rfl | rfl <;>
    (obtain rfl := Except.ok.inj htab
     rcases hmod with rfl | rfl | rfl | rfl <;> rfl)

lemma create_pva_array_mem (combined : List Int) :
    ∀ x ∈ create_pva_array combined,
      x = 0 ∨ x = 1 ∨ x = 2 ∨ x = 3 := by
  intro x hx
  rw [create_pva_array] at hx
  rcases List.mem_append.mp hx with h | h
  · simp only [List.mem_map] at h
    obtain ⟨p, -, rfl⟩ := h
    split
    · right; left; rfl
    · split
      · left; rfl
      · right; right; left; rfl
  · simp only [List.mem_singleton] at h
    right; right; right; exact h

lemma create_pva_array_ne_nil (combined : List Int) :
    create_pva_array combined ≠ [] := by
  rw [create_pva_array]
  simp

lemma create_PVA_Mods_rows (pva : List Int) (n : Nat) (hne : pva ≠ []) :
    ∀ v ∈ create_PVA_Mods pva n, v.length = n ∧ ∀ x ∈ v, x ∈ pva := by
  intro v hv
  rw [create_PVA_Mods] at hv
  simp only [List.mem_map, List.mem_range] at hv
  obtain ⟨r, -, rfl⟩ := hv
  refine ⟨by rw [List.length_map, List.length_range], fun x hx => ?_⟩
  simp only [List.mem_map, List.mem_range] at hx
  obtain ⟨c, -, rfl⟩ := hx
  have hplen : 0 < pva.length := List.length_pos.mpr hne
  have hlt : (r * n + c) % pva.length < pva.length := Nat.mod_lt _ hplen
  rw [List.getD_eq_getElem _ _ hlt]
  exact List.getElem_mem hlt

lemma runPVAMods_rows (seed : List Int) (n : Nat) (h6 : 6 ≤ n) :
    ∀ v ∈ runPVAMods seed n, v.length = n ∧
      ∀ x ∈ v, x = 0 ∨ x = 1 ∨ x = 2 ∨ x = 3 := by
  intro v hv
  rw [runPVAMods_eq seed n h6] at hv
  obtain ⟨h1, h2⟩ := create_PVA_Mods_rows _ n
    (create_pva_array_ne_nil _) v hv
  exact ⟨h1, fun x hx => create_pva_array_mem _ x (h2 x hx)⟩

lemma record_pvmod_facts (seed : List Int) (n : Nat) (h6 : 6 ≤ n)
    (o : Oracle) :
    ∀ av ∈ runAlphaValues seed n o,
      av.Alpha_PV_Mod.length = n ∧
      ∀ x ∈ av.Alpha_PV_Mod, x = 0 ∨ x = 1 ∨ x = 2 ∨ x = 3 := by
  intro av hav
  rw [runAlphaValues, create_alpha] at hav
  simp only [List.mem_map, List.mem_range] at hav
  obtain ⟨i, hi, rfl⟩ := hav
  dsimp only
  have hml := runPVAMods_length seed n h6
  have hmem : (if i < (runPVAMods seed n).length
      then (runPVAMods seed n).getD i []
      else (runPVAMods seed n).getD
        (o.rowDraw i % (runPVAMods seed n).length) []) ∈
      runPVAMods seed n := by
    split
    · next h => rw [List.getD_eq_getElem _ _ h]; exact List.getElem_mem h
    · next h =>
        have hlt : o.rowDraw i % (runPVAMods seed n).length <
            (runPVAMods seed n).length := Nat.mod_lt _ (by omega)
        rw [List.getD_eq_getElem _ _ hlt]
        exact List.getElem_mem hlt
  exact runPVAMods_rows seed n h6 _ hmem

lemma length_filterMap_of_forall_isSome {α β : Type} (f : α → Option β) :
    ∀ (l : List α), (∀ x ∈ l, (f x).isSome) →
      (l.filterMap f).length = l.length := by
  intro l
  induction l with
  | nil => intro _; rfl
  | cons a l ih =>
      intro h
      rw [List.filterMap_cons]
      cases hfa : f a with
      | none =>
          exfalso
          have := h a (List.mem_cons_self _ _)
          rw [hfa] at this
          simp at this
      | some b =>
          rw [List.length_cons,
            ih (fun x hx => h x (List.mem_cons_of_mem _ hx))]
          rfl


lemma pyListMul_length (l : List (List Int)) (k : Int) :
    (pyListMul l k).length = k.toNat * l.length := by
  rw [pyListMul, List.length_flatten, List.map_replicate,
    List.sum_replicate, smul_eq_mul]

/-- **C2.**  For every Alpha Record of a valid run and every supported
Phorms Mod Table version: every selector of `Alpha_PV_Mod` is a key of
the table, the pre-replication list has exactly `N+1` rows, and the
Transformed Alpha has length `N+1` when `Repeater == 0` and
`(N+1)*Repeater` otherwise. -/
theorem C2_selector_replication (seed : List Int) (n : Nat) (h6 : 6 ≤ n)
    (h15 : n ≤ 15) (hlen : seed.length = n)
    (hvals : ∀ x ∈ seed, 0 ≤ x ∧ x ≤ 9) (o : Oracle) (version : String)
    (table : List (Int × (Int → Int))) (hv : version ∈ supportedVersions)
    (htab : phorms_mod_table version = Except.ok table) :
    ∀ av ∈ runAlphaValues seed n o,
      (∀ mod ∈ av.Alpha_PV_Mod, (tableLookup table mod).isSome) ∧
      (modifiedVersions table 9 av).length = n + 1 ∧
      (av.Repeater = 0 →
        (transform_alpha_record table 9 av).length = n + 1) ∧
      (av.Repeater ≠ 0 →
        ((transform_alpha_record table 9 av).length : Int) =
          (n + 1) * av.Repeater) := by
  intro av hav
  obtain ⟨hlen2, hmem4⟩ := record_pvmod_facts seed n h6 o av hav
  have hsome : ∀ mod ∈ av.Alpha_PV_Mod, (tableLookup table mod).isSome :=
    fun mod hm =>
      tableLookup_isSome_of_supported version table hv htab mod
        (hmem4 mod hm)
  have hmv : (modifiedVersions table 9 av).length = n + 1 := by
    rw [modifiedVersions, List.length_cons,
      length_filterMap_of_forall_isSome _ _ (fun mod hm => ?_), hlen2]
    cases htl : tableLookup table mod with
    | none =>
        exfalso
        have hms := hsome mod hm
        rw [htl] at hms
        simp at hms
    | some f => rfl
  refine ⟨hsome, hmv, fun h0 => ?_, fun hne => ?_⟩
  · rw [transform_alpha_record, if_pos h0, hmv]
  · have hrep := records_repeater_nonneg seed n h6 hlen
      (fun x hx => (hvals x hx).1) o av hav
    rw [transform_alpha_record, if_neg hne, pyListMul_length, hmv]
    push_cast
    rw [Int.toNat_of_nonneg hrep]
    ring

/-- Witness for C2 at `N = 6`, `Seed = [3,5,2,8,1,4]`, constant oracle,
"default" version. -/
theorem C2_selector_replication_witness :
    ((6 : Nat) ≤ 6 ∧ (6 : Nat) ≤ 15 ∧
      ([3, 5, 2, 8, 1, 4] : List Int).length = 6 ∧
      (∀ x ∈ ([3, 5, 2, 8, 1, 4] : List Int), 0 ≤ x ∧ x ≤ 9) ∧
      "default" ∈ supportedVersions) ∧
    ∀ av ∈ runAlphaValues [3, 5, 2, 8, 1, 4] 6 ⟨fun _ => 0, fun _ => 0⟩,
      (∀ mod ∈ av.Alpha_PV_Mod, (tableLookup defaultTable mod).isSome) ∧
      (modifiedVersions defaultTable 9 av).length = 6 + 1 ∧
      (av.Repeater = 0 →
        (transform_alpha_record defaultTable 9 av).length = 6 + 1) ∧
      (av.Repeater ≠ 0 →
        ((transform_alpha_record defaultTable 9 av).length : Int) =
          (6 + 1) * av.Repeater) :=
  ⟨⟨by decide, by decide, by decide, by decide, by decide⟩,
    C2_selector_replication [3, 5, 2, 8, 1, 4] 6 (by decide) (by decide)
      (by decide) (by decide) ⟨fun _ => 0, fun _ => 0⟩ "default"
      defaultTable (by decide) rfl⟩

/-! ## Determinism of the pipeline -/

/-- The outputs of every stage named by the determinism property. -/
structure PipelineOutputs where
  flat : List Int
  pva : List Int
  pvaMods : List (List Int)
  records : List AlphaValue
  transformed : List (List (List Int))
deriving Repr

/-- The whole pipeline, steps 2–19 of `Enki_V3.run_pipeline` followed by
`AlphaTransformer.transform_alpha_dataframe`, with the random fallback
draws supplied by the oracle. -/
def runPipeline (seed : List Int) (n : Nat) (o : Oracle)
    (version : String) (maxValue : Int) : PipelineOutputs :=
  match buildDataTriangle seed n with
  | none => ⟨[], [], [], [], []⟩
  | some tri =>
      let flat := combine_all_values_DT tri
      let pva := create_pva_array flat
      let pvaMods := create_PVA_Mods pva n
      let df := create_alpha_roots_dataframe
        (combine_alpha_roots (create_alpha_roots_rows tri n)
          (create_alpha_roots_post_pivot tri))
      let records := create_alpha df pvaMods o
      let transformed :=
        match phorms_mod_table version with
        | .error _ => []
        | .ok table => records.map (transform_alpha_record table maxValue)
      ⟨flat, pva, pvaMods, records, transformed⟩

/-- **C8.**  Two runs with the same Seed, the same Phorms Mod Table
version, and the same outcomes for the random fallback draws produce
identical outputs at every stage: Combined Flat Sequence, Trend-Code
Sequence, Modulation Matrix, Alpha Records, and Transformed Alpha.  (The
pipeline is a pure function of the seed, the version, and the draw
outcomes.) -/
theorem C8_determinism (seed : List Int) (n : Nat) (version : String)
    (maxValue : Int) (o1 o2 : Oracle)
    (hpool : ∀ k, o1.poolDraw k = o2.poolDraw k)
    (hrow : ∀ k, o1.rowDraw k = o2.rowDraw k) :
    runPipeline seed n o1 version maxValue =
      runPipeline seed n o2 version maxValue := by
  have ho : o1 = o2 := by
    cases o1
    cases o2
    simp only [Oracle.mk.injEq]
    exact ⟨funext hpool, funext hrow⟩
  rw [ho]

/-- Witness for C8: two syntactically different oracles with equal draw
outcomes yield the same pipeline output. -/
theorem C8_determinism_witness :
    (∀ k, (Oracle.mk (fun _ => 0) (fun _ => 0)).poolDraw k =
      (Oracle.mk (fun k => 0 * k) (fun k => k * 0)).poolDraw k) ∧
    (∀ k, (Oracle.mk (fun _ => 0) (fun _ => 0)).rowDraw k =
      (Oracle.mk (fun k => 0 * k) (fun k => k * 0)).rowDraw k) ∧
    runPipeline [3, 5, 2, 8, 1, 4] 6 ⟨fun _ => 0, fun _ => 0⟩ "default" 9 =
      runPipeline [3, 5, 2, 8, 1, 4] 6 ⟨fun k => 0 * k, fun k => k * 0⟩
        "default" 9 :=
  ⟨fun k => (Nat.zero_mul k).symm, fun k => (Nat.mul_zero k).symm,
    C8_determinism [3, 5, 2, 8, 1, 4] 6 "default" 9
      ⟨fun _ => 0, fun _ => 0⟩ ⟨fun k => 0 * k, fun k => k * 0⟩
      (fun k => (Nat.zero_mul k).symm) (fun k => (Nat.mul_zero k).symm)⟩

end Enki
